import Mathlib

/-!
Verification development for a per-guild audio playback queue manager
(repository: a Discord music bot; core logic in `utils.py` and `main.py`).

The Python source is shallowly embedded below:
* pure data is embedded as Lean structures,
* the per-guild mutable state (`GuildState` in `utils.py`) is embedded as an
  explicit state record threaded through the operations,
* external effects (chat messages, voice-transport commands, sink start)
  are recorded in an explicit event trace,
* the filesystem of temp files is a list of existing paths,
* external collaborators (catalog lookups, connection attempts, downloads,
  duration probing, sink start) are oracles packaged in an `Env` record,
  so each theorem quantifies over their outcomes.

Machine floats (durations, timestamps) are abstracted to `Nat` values: the
code only stores, logs and resets them, never branches on their arithmetic.
-/

namespace MusicBot

/-- Track ids are Python ints (`song: int` in `/play`, `id` keys in `songs.json`). -/
abbrev SongId := Int

/-- Temp-file paths (`tempfile.mkstemp` results) are abstracted to tokens. -/
abbrev TmpPath := Nat

/-- Catalog track metadata as used by `start_playing` (`title`, `artist`). -/
structure Song where
  title : String
  artist : String
deriving Repr, DecidableEq

/-- A voice client handle (`discord.VoiceClient`): its channel and whether
`is_connected()` holds. -/
structure VC where
  chan : Nat
  connected : Bool
deriving Repr, DecidableEq

/-- Externally visible events emitted by the embedded operations: user-facing
messages (`text_channel.send` / interaction responses), voice-client commands
(`pause`/`resume`/`stop`/`disconnect`) and sink starts (`vc.play`). -/
inductive Ev where
  | sendVoiceWarn
  | sendUnknownSong (id : SongId)
  | sendPrefetching (id : SongId)
  | sendPrefetchDone (id : SongId)
  | sinkStart (id : SongId) (p : TmpPath)
  | sendPlayError
  | disconnectVC
  | sendLeftVoice
  | vcPause
  | vcResume
  | vcStop
  | sendPauseAck
  | sendAlreadyPaused
  | sendNothingToPause
  | sendNotConnected
  | sendResumeAck
  | sendNothingToResume
  | sendSkipAck
  | sendNothingPlaying
  | sendReleased
deriving Repr, DecidableEq

/-- The per-guild mutable state, field for field the `GuildState.__init__`
of `utils.py` (`_play_start_time` and `_current_tmp_path` lose their leading
underscore; `current_mp3_seconds` keeps only whether a positive duration is
known, its numeric value being opaque to the control flow). -/
structure GuildState where
  queue : List SongId
  is_playing : Bool
  is_paused : Bool
  vc : Option VC
  current_mp3_seconds : Option Nat
  play_start_time : Option Nat
  current_tmp_path : Option TmpPath
deriving Repr, DecidableEq

/-- A guild's state plus the world it touches: the set of existing temp files
and the trace of emitted events. -/
structure Sys where
  st : GuildState
  fs : List TmpPath
  evs : List Ev
deriving Repr, DecidableEq

/-- Oracle for the external collaborators of `start_playing`:
`lookup` is the `get_song_info_by_id` snapshot, `connectOk` the outcome of
`voice_channel.connect()` / `move_to`, `download` the outcome of
`download_to_temp` (a fresh path on success, `none` when all retries failed),
`duration` the `get_mp3_duration_from_path` result filtered by the
`seconds > 0` check, `now` the `time.time()` reading, `sinkOk` whether
`vc.play` raises. -/
structure Env where
  lookup : SongId → Option Song
  connectOk : Bool
  download : SongId → Option TmpPath
  duration : TmpPath → Option Nat
  now : Nat
  sinkOk : SongId → Bool

/-- `list.pop(0)` guarded by `if queue:`; on an empty list nothing happens. -/
def popHead : List SongId → List SongId
  | [] => []
  | _ :: t => t

/-- `os.remove`: fails (with `FileNotFoundError`) exactly when the path does
not exist. -/
def os_remove (fs : List TmpPath) (p : TmpPath) : Except Unit (List TmpPath) :=
  if p ∈ fs then Except.ok (fs.filter (fun q => q ≠ p)) else Except.error ()

/-- `GuildState._cleanup_tmp`: if no tmp path is tracked, return; otherwise
try `os.remove` (a `FileNotFoundError` is passed over, any other failure is
logged and swallowed), and in the `finally` block null the tracked path. -/
def cleanup_tmp (st : GuildState) (fs : List TmpPath) : GuildState × List TmpPath :=
  match st.current_tmp_path with
  | none => (st, fs)
  | some p =>
    match os_remove fs p with
    | Except.ok fs2 => ({ st with current_tmp_path := none }, fs2)
    | Except.error _ => ({ st with current_tmp_path := none }, fs)

/-- `GuildState._ensure_voice_connection`: default the target channel to the
currently held client's channel; with no target, warn and raise; reuse a
connected client on the same channel, move it if on another channel, else
connect anew. A move/connect failure raises with no state change; the raised
value carries the events emitted before raising. `resolve_voice_channel` is
its opening default of the target channel to the held client's channel. -/
def resolve_voice_channel (voice : Option Nat) (vc : Option VC) : Option Nat :=
  match voice, vc with
  | none, some v => some v.chan
  | none, none => none
  | some c, _ => some c

/-- The body of `GuildState._ensure_voice_connection` after channel
resolution; see `resolve_voice_channel`. -/
def ensure_voice (env : Env) (st : GuildState) (voice : Option Nat) :
    Except (List Ev) GuildState :=
  match resolve_voice_channel voice st.vc with
  | none => Except.error [Ev.sendVoiceWarn]
  | some c =>
    match st.vc with
    | some v =>
      if v.connected then
        if v.chan ≠ c then
          if env.connectOk then
            Except.ok { st with vc := some { chan := c, connected := true } }
          else Except.error []
        else Except.ok st
      else
        if env.connectOk then
          Except.ok { st with vc := some { chan := c, connected := true } }
        else Except.error []
    | none =>
      if env.connectOk then
        Except.ok { st with vc := some { chan := c, connected := true } }
      else Except.error []

/-- `GuildState.start_playing`, with the self-recursion bounded by an explicit
fuel so the definition is structural. Every recursive call in the Python
code first pops the queue head, so with fuel `queue.length` the zero-fuel
branch is unreachable and the function computes exactly the unbounded
recursion (`start_playing` below instantiates the fuel that way). -/
def start_playing_go (env : Env) (voice : Option Nat) : Nat → Sys → Sys
  | fuel, s =>
    if s.st.is_playing = true ∨ s.st.queue = [] then s
    else
      match s.st.queue with
      | [] => s
      | song_id :: rest =>
        match fuel with
        | 0 => s
        | Nat.succ fuel2 =>
          let st0 := { s.st with is_playing := true, is_paused := false }
          match env.lookup song_id with
          | none =>
            let s1 : Sys := { st := { st0 with queue := rest, is_playing := false },
                              fs := s.fs,
                              evs := s.evs ++ [Ev.sendUnknownSong song_id] }
            if rest = [] then s1 else start_playing_go env voice fuel2 s1
          | some _info =>
            match ensure_voice env st0 voice with
            | Except.error errEvs =>
              let s1 : Sys := { st := { st0 with queue := rest, is_playing := false },
                                fs := s.fs,
                                evs := s.evs ++ errEvs }
              if rest = [] then s1 else start_playing_go env voice fuel2 s1
            | Except.ok st1 =>
              let evs1 := s.evs ++ [Ev.sendPrefetching song_id]
              match env.download song_id with
              | none =>
                let st2 := { st1 with queue := rest, is_playing := false }
                let cl := cleanup_tmp st2 s.fs
                let s1 : Sys := { st := cl.1, fs := cl.2, evs := evs1 }
                if rest = [] then s1 else start_playing_go env voice fuel2 s1
              | some p =>
                let st2 := { st1 with current_tmp_path := some p }
                let fs2 := s.fs ++ [p]
                let evs2 := evs1 ++ [Ev.sendPrefetchDone song_id]
                let st3 := { st2 with current_mp3_seconds := env.duration p,
                                      play_start_time := some env.now }
                if env.sinkOk song_id then
                  { st := st3, fs := fs2, evs := evs2 ++ [Ev.sinkStart song_id p] }
                else
                  let st4 := { st3 with queue := rest, is_playing := false }
                  let cl := cleanup_tmp st4 fs2
                  let s1 : Sys := { st := cl.1, fs := cl.2, evs := evs2 }
                  if rest = [] then s1 else start_playing_go env voice fuel2 s1

/-- `GuildState.start_playing` proper. -/
def start_playing (env : Env) (s : Sys) (voice : Option Nat) : Sys :=
  start_playing_go env voice s.st.queue.length s

/-- `handle_after_play` of `utils.py`: warn on a sink error, delete the temp
file, pop the finished head, reset the playing flags and timing, then either
advance into `start_playing` or, with an empty queue, tear the connected
voice client down and announce leaving. -/
def handle_after_play (env : Env) (s : Sys) (error : Bool) : Sys :=
  let evs0 := if error then s.evs ++ [Ev.sendPlayError] else s.evs
  let cl := cleanup_tmp s.st s.fs
  let st2 := { cl.1 with queue := popHead cl.1.queue }
  let st3 := { st2 with is_playing := false, is_paused := false,
                        current_mp3_seconds := none, play_start_time := none }
  let s1 : Sys := { st := st3, fs := cl.2, evs := evs0 }
  if st3.queue = [] then
    match st3.vc with
    | some v =>
      if v.connected then
        { s1 with st := { st3 with vc := none },
                  evs := s1.evs ++ [Ev.disconnectVC, Ev.sendLeftVoice] }
      else s1
    | none => s1
  else
    start_playing env s1 (st3.vc.map VC.chan)

/-- The `/play` handler's queue mutation (`state.queue.append(song)` in
`main.py`): a plain tail append, with no precondition on the state. -/
def play_enqueue (st : GuildState) (song : SongId) : GuildState :=
  { st with queue := st.queue ++ [song] }

/-- The `/disconnect` handler's `cleanup()` body in `main.py`: clear the whole
queue, force both flags off, disconnect a held voice client (whether or not
still connected) nulling the handle, and announce the release. -/
def disconnect_and_clear (s : Sys) : Sys :=
  let st := { s.st with queue := [], is_playing := false, is_paused := false }
  match st.vc with
  | some _ =>
    { st := { st with vc := none }, fs := s.fs,
      evs := s.evs ++ [Ev.disconnectVC, Ev.sendReleased] }
  | none => { st := st, fs := s.fs, evs := s.evs ++ [Ev.sendReleased] }

/-- The `/stop` (alias `/pause`) handler of `main.py`. `vcIsPlaying` and
`vcIsPaused` are the sink-side `vc.is_playing()` / `vc.is_paused()` queries. -/
def stop_as_pause (s : Sys) (vcIsPlaying vcIsPaused : Bool) : Sys :=
  match s.st.vc with
  | none => { s with evs := s.evs ++ [Ev.sendNotConnected] }
  | some _ =>
    if vcIsPlaying then
      { s with st := { s.st with is_paused := true },
               evs := s.evs ++ [Ev.vcPause, Ev.sendPauseAck] }
    else if vcIsPaused ∨ s.st.is_paused then
      { s with evs := s.evs ++ [Ev.sendAlreadyPaused] }
    else
      { s with evs := s.evs ++ [Ev.sendNothingToPause] }

/-- The `/resume` handler of `main.py`. -/
def resume_cmd (s : Sys) (vcIsPaused : Bool) : Sys :=
  match s.st.vc with
  | none => { s with evs := s.evs ++ [Ev.sendNotConnected] }
  | some _ =>
    if vcIsPaused ∨ s.st.is_paused then
      { s with st := { s.st with is_paused := false },
               evs := s.evs ++ [Ev.vcResume, Ev.sendResumeAck] }
    else { s with evs := s.evs ++ [Ev.sendNothingToResume] }

/-- The `/skip` handler of `main.py`: when a client is held and the sink is
playing or paused, resume first if paused then request a sink stop; the
queue itself is untouched — the later completion callback drives the advance. -/
def skip_cmd (s : Sys) (vcIsPlaying vcIsPaused : Bool) : Sys :=
  match s.st.vc with
  | none => { s with evs := s.evs ++ [Ev.sendNothingPlaying] }
  | some _ =>
    if vcIsPlaying ∨ vcIsPaused then
      { s with evs := s.evs ++
          ((if vcIsPaused then [Ev.vcResume] else []) ++ [Ev.vcStop, Ev.sendSkipAck]) }
    else { s with evs := s.evs ++ [Ev.sendNothingPlaying] }

/-! ### Completion bridge (`after_callback_factory` in `utils.py`)

The sink invokes the produced callback from its own playback thread. The
callback resolves a scheduler reference (the stored `main_loop`, falling back
to `asyncio.get_running_loop()`, which in a foreign thread yields nothing),
and with one available schedules `handle_after_play` onto it and blocks on
`fut.result()` until the handler finished; the whole body sits inside
`try: ... except Exception: logging.exception("after callback failed")`, so a
handler exception re-raised by the blocking wait is caught and logged inside
the callback and never escapes to the sink. With no scheduler it logs an
error and returns without running the handler. The thread boundary itself is
abstracted: the model records, per invocation, what ran, what was awaited,
what was logged and whether anything escaped the callback. -/

/-- An opaque event-loop reference. -/
abbrev LoopRef := Nat

/-- What one invocation of the completion callback did. -/
structure CbTrace where
  handler_ran : Bool
  waited_for_handler : Bool
  logged_no_loop : Bool
  logged_after_failed : Bool
  escaped_to_sink : Bool
deriving Repr, DecidableEq

/-- The callback's loop resolution: `main_loop`, else
`asyncio.get_running_loop()` (reported here as `runningLoop`, `none` when that
call raises `RuntimeError`). -/
def resolve_loop (mainLoop runningLoop : Option LoopRef) : Option LoopRef :=
  match mainLoop with
  | some l => some l
  | none => runningLoop

/-- Whether an advance-handler outcome is an exception. -/
def handler_failed (e : Except Unit Unit) : Bool :=
  match e with
  | Except.error _ => true
  | Except.ok _ => false

/-- The callback produced by `after_callback_factory`, given the resolvable
loops and the outcome `handlerOutcome` that `handle_after_play` would produce
when run. -/
def after_callback (mainLoop runningLoop : Option LoopRef)
    (handlerOutcome : Except Unit Unit) : CbTrace :=
  match resolve_loop mainLoop runningLoop with
  | none =>
    { handler_ran := false, waited_for_handler := false, logged_no_loop := true,
      logged_after_failed := false, escaped_to_sink := false }
  | some _ =>
    { handler_ran := true, waited_for_handler := true, logged_no_loop := false,
      logged_after_failed := handler_failed handlerOutcome,
      escaped_to_sink := false }

/-! ### Catalog cache (`songs_cache` / `songs_by_id` in `utils.py`) -/

/-- One raw entry of `songs.json`: the code reads `s.get("id")` and keeps the
entry in the index only when that is an `int`. -/
structure RawSong where
  id : Option Int
  title : String
  artist : String
deriving Repr, DecidableEq

/-- The module-level catalog globals: `songs_cache` (`None` until first load)
and the id index `songs_by_id`. -/
structure CatalogState where
  songs_cache : Option (List RawSong)
  songs_by_id : Int → Option RawSong

/-- One step of `_build_index`'s loop: skip entries without an int id, count a
duplicate when the id is already present, and overwrite (last one wins). -/
def build_index_step (acc : (Int → Option RawSong) × Nat) (s : RawSong) :
    (Int → Option RawSong) × Nat :=
  match s.id with
  | some sid =>
    ((fun k => if k = sid then some s else acc.1 k),
     if (acc.1 sid).isSome then acc.2 + 1 else acc.2)
  | none => acc

/-- `_build_index`: reset the index, return it empty when the cache is `None`
or empty (`if not songs_cache`), else fold the cache through
`build_index_step`. Also returns the duplicate count that gets logged. -/
def build_index (cache : Option (List RawSong)) : (Int → Option RawSong) × Nat :=
  match cache with
  | none => ((fun _ => none), 0)
  | some [] => ((fun _ => none), 0)
  | some l => l.foldl build_index_step ((fun _ => none), 0)

/-- `load_songs`: `fetch` is the outcome of the HTTP get plus JSON decode
(`resp.raise_for_status()` / `resp.json(...)`). On failure the exception
propagates and neither global is assigned; on success the cache is replaced
and the index rebuilt from the complete new list. Returns the new catalog
state and whether an exception was raised to the caller. -/
def load_songs (fetch : Except Unit (List RawSong)) (cs : CatalogState) :
    CatalogState × Bool :=
  match fetch with
  | Except.error _ => (cs, true)
  | Except.ok data =>
    ({ songs_cache := some data, songs_by_id := (build_index (some data)).1 }, false)

/-- `get_song_info_by_id`: `None` before the first load, else an index read. -/
def get_song_info_by_id (cs : CatalogState) (song_id : Int) : Option RawSong :=
  match cs.songs_cache with
  | none => none
  | some _ => cs.songs_by_id song_id

/-- The last catalog entry carrying a given id (the value a Python dict holds
after inserting them in order). -/
def lastIdMatch (d : List RawSong) (k : Int) : Option RawSong :=
  d.reverse.find? (fun s => s.id = some k)

/-! ### Blob fetcher (`download_to_temp` in `utils.py`) -/

/-- The outcome the network yields for one attempt of the retry loop:
how many bytes got written to the temp file before the attempt ended, and
whether it ended by completing the body (`ok`) or by raising. -/
structure Attempt where
  bytes : Nat
  ok : Bool
deriving Repr, DecidableEq

/-- One HTTP request of the retry loop: the code sends
`Range: bytes=<downloaded>-` and opens the file in append mode exactly when
`downloaded > 0`. -/
structure Request where
  range : Option Nat
  append : Bool
deriving Repr, DecidableEq

/-- The request issued at a given resume offset. -/
def requestFor (downloaded : Nat) : Request :=
  if 0 < downloaded then { range := some downloaded, append := true }
  else { range := none, append := false }

instance : DecidableEq (Except Unit Unit) := fun a b =>
  match a, b with
  | Except.ok (), Except.ok () => isTrue rfl
  | Except.error (), Except.error () => isTrue rfl
  | Except.ok _, Except.error _ => isFalse (fun h => Except.noConfusion h)
  | Except.error _, Except.ok _ => isFalse (fun h => Except.noConfusion h)

/-- Everything observable about one `download_to_temp` run: the final
result, the requests issued, the `asyncio.sleep(1.5 * attempt)` backoffs
(in seconds, as rationals), whether the temp file still exists, and the byte
counter. -/
structure DLTrace where
  result : Except Unit Unit
  requests : List Request
  sleeps : List ℚ
  fileExists : Bool
  downloaded : Nat
deriving Repr, DecidableEq

/-- The retry loop `for attempt in range(1, max_retries + 1)` of
`download_to_temp`, structurally recursive on the remaining attempts
(`remaining + attempt = max_retries + 1`). On a completed attempt it breaks
and returns the path; on a raising attempt it either re-raises after removing
the partial file (last attempt) or sleeps `1.5 * attempt` seconds and
retries from the bytes already written. -/
def download_loop (att : Nat → Attempt) :
    Nat → Nat → Nat → List Request → List ℚ → DLTrace
  | 0, _, downloaded, reqs, sleeps =>
    { result := Except.ok (), requests := reqs, sleeps := sleeps,
      fileExists := true, downloaded := downloaded }
  | Nat.succ r, attempt, downloaded, reqs, sleeps =>
    let a := att attempt
    let reqs2 := reqs ++ [requestFor downloaded]
    let downloaded2 := downloaded + a.bytes
    if a.ok then
      { result := Except.ok (), requests := reqs2, sleeps := sleeps,
        fileExists := true, downloaded := downloaded2 }
    else if r = 0 then
      { result := Except.error (), requests := reqs2, sleeps := sleeps,
        fileExists := false, downloaded := downloaded2 }
    else
      download_loop att r (attempt + 1) downloaded2 reqs2
        (sleeps ++ [(3 : ℚ) / 2 * attempt])

/-- `download_to_temp` with its default `max_retries = 3`: make the temp file,
then run the retry loop from attempt 1 with zero bytes written. -/
def download_to_temp (att : Nat → Attempt) : DLTrace :=
  download_loop att 3 1 0 [] []

/-! ### Queue traces

Sequences of the real operations acting on one guild's `Sys`: `/play`
enqueues, completion callbacks advance, `/disconnect` clears. -/

/-- One operation of a queue trace. -/
inductive QOp where
  | enq (i : SongId)
  | complete (err : Bool)
  | clear
deriving Repr, DecidableEq

/-- Apply one operation through the corresponding embedded code. -/
def stepSys (env : Env) (s : Sys) : QOp → Sys
  | QOp.enq i => { s with st := play_enqueue s.st i }
  | QOp.complete err => handle_after_play env s err
  | QOp.clear => disconnect_and_clear s

/-- Run a trace of operations. -/
def runSys (env : Env) (s : Sys) (ops : List QOp) : Sys :=
  ops.foldl (stepSys env) s

/-- The enqueue history since the last clear, seeded with the starting
queue: what the queue would be had nothing ever been consumed. -/
def histQ : List SongId → List QOp → List SongId
  | q, [] => q
  | q, QOp.enq i :: ops => histQ (q ++ [i]) ops
  | q, QOp.complete _ :: ops => histQ q ops
  | _, QOp.clear :: ops => histQ [] ops

/-- Number of enqueues in a trace. -/
def countEnq (ops : List QOp) : Nat :=
  ops.countP (fun op => match op with | QOp.enq _ => true | _ => false)

/-- Number of completions in a trace. -/
def countComplete (ops : List QOp) : Nat :=
  ops.countP (fun op => match op with | QOp.complete _ => true | _ => false)

/-- Entries removed by clears along a trace: each `clear` wipes the queue it
finds. -/
def clearedInTrace (env : Env) : Sys → List QOp → Nat
  | _, [] => 0
  | s, op :: ops =>
    (match op with | QOp.clear => s.st.queue.length | _ => 0)
      + clearedInTrace env (stepSys env s op) ops

/-- A completion is plain when the queue is non-empty and, after the head is
popped, the queue is either empty or its new head can actually start: the
guild holds a connected voice client, the track is in the catalog, its
download succeeds and the sink accepts it. Such a completion removes exactly
the head (no skip cascade). -/
def plainCompletion (env : Env) (s : Sys) : Bool :=
  s.st.queue ≠ [] &&
    (match popHead s.st.queue, s.st.vc with
     | [], _ => true
     | j :: _, some v =>
       v.connected && (env.lookup j).isSome && (env.download j).isSome
         && env.sinkOk j
     | _ :: _, none => false)

/-- Every completion in the trace is plain at the state where it fires. -/
def plainTrace (env : Env) : Sys → List QOp → Bool
  | _, [] => true
  | s, op :: ops =>
    (match op with | QOp.complete _ => plainCompletion env s | _ => true)
      && plainTrace env (stepSys env s op) ops

/-! ### Concrete fixtures used by witnesses, counterexamples and scenarios -/

/-- The spec scenario catalog: tracks 1 ↦ ("A","X") and 2 ↦ ("B","Y"), all
collaborators succeeding; downloads for 1 and 2 land on fresh paths 11, 12. -/
def env12 : Env :=
  { lookup := fun i =>
      if i = 1 then some ⟨"A", "X"⟩ else if i = 2 then some ⟨"B", "Y"⟩ else none,
    connectOk := true,
    download := fun i => if i = 1 then some 11 else if i = 2 then some 12 else none,
    duration := fun _ => some 100,
    now := 0,
    sinkOk := fun _ => true }

/-- Track 1 of the scenario is playing from temp file 11, track 2 queued. -/
def sys12 : Sys :=
  { st := { queue := [1, 2], is_playing := true, is_paused := false,
            vc := some ⟨7, true⟩, current_mp3_seconds := some 100,
            play_start_time := some 0, current_tmp_path := some 11 },
    fs := [11], evs := [] }

/-- Catalog knowing only track 1; downloads all fail. -/
def envSkip : Env :=
  { lookup := fun i => if i = 1 then some ⟨"A", "X"⟩ else none,
    connectOk := true, download := fun _ => none, duration := fun _ => none,
    now := 0, sinkOk := fun _ => true }

/-- Track 1 playing with unknown id 99 queued behind it. -/
def sysCascade : Sys :=
  { st := { queue := [1, 99], is_playing := true, is_paused := false,
            vc := some ⟨7, true⟩, current_mp3_seconds := none,
            play_start_time := none, current_tmp_path := none },
    fs := [], evs := [] }

/-- Idle state: empty queue, nothing playing, no client. -/
def sysIdle : Sys :=
  { st := { queue := [], is_playing := false, is_paused := false,
            vc := none, current_mp3_seconds := none,
            play_start_time := none, current_tmp_path := none },
    fs := [], evs := [] }

/-- Sole queue entry 99, which no catalog knows. -/
def sys99 : Sys :=
  { st := { queue := [99], is_playing := false, is_paused := false,
            vc := none, current_mp3_seconds := none,
            play_start_time := none, current_tmp_path := none },
    fs := [], evs := [] }

/-- Network oracle where every attempt fails after partial progress. -/
def attAllFail : Nat → Attempt :=
  fun n => if n = 1 then ⟨5, false⟩ else if n = 2 then ⟨7, false⟩ else ⟨0, false⟩

/-! ## Helper lemmas -/

theorem cleanup_tmp_fst (st : GuildState) (fs : List TmpPath) :
    (cleanup_tmp st fs).1 = { st with current_tmp_path := none } := by
  unfold cleanup_tmp
  cases h : st.current_tmp_path with
  | none => cases st; simp_all
  | some p => cases hr : os_remove fs p <;> simp [hr]

theorem cleanup_tmp_not_mem (st : GuildState) (fs : List TmpPath) (p : TmpPath)
    (h : st.current_tmp_path = some p) : p ∉ (cleanup_tmp st fs).2 := by
  unfold cleanup_tmp os_remove
  rw [h]
  by_cases hm : p ∈ fs <;> simp [hm, List.mem_filter]

theorem cleanup_tmp_mem (st : GuildState) (fs : List TmpPath) (q : TmpPath)
    (h : q ∈ (cleanup_tmp st fs).2) : q ∈ fs := by
  unfold cleanup_tmp at h
  cases hc : st.current_tmp_path with
  | none => rw [hc] at h; exact h
  | some p =>
    rw [hc] at h
    unfold os_remove at h
    by_cases hm : p ∈ fs
    · simp [hm, List.mem_filter] at h; exact h.1
    · simp [hm] at h; exact h

theorem ensure_voice_ok_shape (env : Env) (st : GuildState) (voice : Option Nat)
    (st1 : GuildState) (h : ensure_voice env st voice = Except.ok st1) :
    st1 = st ∨ ∃ c, st1 = { st with vc := some { chan := c, connected := true } } := by
  unfold ensure_voice at h
  repeat' split at h
  all_goals first
    | exact Except.noConfusion h
    | (injection h with h2; exact Or.inl h2.symm)
    | (injection h with h2; exact Or.inr ⟨_, h2.symm⟩)

theorem find?_append_or {α : Type} (l1 l2 : List α) (p : α → Bool) :
    (l1 ++ l2).find? p =
      match l1.find? p with
      | some x => some x
      | none => l2.find? p := by
  induction l1 with
  | nil => simp
  | cons a t ih =>
    by_cases hp : p a
    · simp [List.find?_cons_of_pos, hp]
    · simp only [List.cons_append, List.find?_cons_of_neg _ hp, ih]

/-! ## Claim theorems -/

/-- Claim C3 (confirmed): `start_playing` is a strict no-op — identical state,
filesystem and events, hence zero additional sink invocations — whenever an
attempt is already in flight (`is_playing`) or the queue is empty; this is the
leading `if self.is_playing or not self.queue: return` guard. -/
theorem c3_start_playing_reentrant_noop (env : Env) (s : Sys) (voice : Option Nat)
    (h : s.st.is_playing = true ∨ s.st.queue = []) :
    start_playing env s voice = s := by
  unfold start_playing start_playing_go
  rw [if_pos h]

/-- Witness for C3 at a concrete idle state (empty queue). -/
theorem c3_start_playing_reentrant_noop_witness :
    start_playing envSkip sysIdle none = sysIdle :=
  c3_start_playing_reentrant_noop envSkip sysIdle none (Or.inr rfl)

/-- Claim C10 (confirmed): a completion callback that finds the queue already
empty (e.g. a late sink callback after `/disconnect` cleared it) pops nothing,
raises nothing (the handler is total), resets `is_playing`, `is_paused`,
duration and timing to their idle values, and leaves the queue empty. -/
theorem c10_late_completion_safe (env : Env) (s : Sys) (err : Bool)
    (h : s.st.queue = []) :
    (handle_after_play env s err).st.queue = [] ∧
    (handle_after_play env s err).st.is_playing = false ∧
    (handle_after_play env s err).st.is_paused = false ∧
    (handle_after_play env s err).st.current_mp3_seconds = none ∧
    (handle_after_play env s err).st.play_start_time = none := by
  cases hvc : s.st.vc with
  | none =>
    unfold handle_after_play
    simp [cleanup_tmp_fst, h, hvc, popHead]
  | some v =>
    unfold handle_after_play
    by_cases hc : v.connected <;>
      simp [cleanup_tmp_fst, h, hvc, hc, popHead]

/-- Witness for C10: a late completion on the idle state. -/
theorem c10_late_completion_safe_witness :
    (handle_after_play envSkip sysIdle true).st.queue = [] ∧
    (handle_after_play envSkip sysIdle true).st.is_playing = false ∧
    (handle_after_play envSkip sysIdle true).st.is_paused = false ∧
    (handle_after_play envSkip sysIdle true).st.current_mp3_seconds = none ∧
    (handle_after_play envSkip sysIdle true).st.play_start_time = none :=
  c10_late_completion_safe envSkip sysIdle true rfl

/-- Counterexample for claim C2 as stated: the claim says an exception raised
during advance "propagates back to the sink's error channel". In the code the
whole callback body — including the blocking `fut.result()` that re-raises the
handler's exception in the sink's thread — is wrapped in
`try: ... except Exception: logging.exception("after callback failed")`, so
the exception is caught and logged inside the callback and nothing ever
escapes to the sink; here, with a scheduler available and a failing handler,
`escaped_to_sink` is `false`, not `true`. -/
theorem c2_exception_never_escapes_to_sink :
    (after_callback (some 0) none (Except.error ())).escaped_to_sink = false := rfl

/-- Claim C2 (corrected): with a controlling scheduler resolvable, the
callback runs the advance handler and blocks until it finishes, and a handler
exception is caught and logged inside the callback ("after callback failed")
rather than silently lost — but it does not escape to the sink. With no
scheduler resolvable (stored loop absent and `asyncio.get_running_loop()`
failing, as in the sink's foreign thread) it logs the missing-loop error and
drops the invocation without running the handler. -/
theorem c2_bridge_blocks_and_drops (mainLoop runningLoop : Option LoopRef)
    (out : Except Unit Unit) :
    (resolve_loop mainLoop runningLoop ≠ none →
      after_callback mainLoop runningLoop out =
        { handler_ran := true, waited_for_handler := true, logged_no_loop := false,
          logged_after_failed := handler_failed out, escaped_to_sink := false })
    ∧ (resolve_loop mainLoop runningLoop = none →
      after_callback mainLoop runningLoop out =
        { handler_ran := false, waited_for_handler := false, logged_no_loop := true,
          logged_after_failed := false, escaped_to_sink := false }) := by
  constructor <;> intro h
  · cases hr : resolve_loop mainLoop runningLoop with
    | none => exact absurd hr h
    | some l => unfold after_callback; rw [hr]
  · unfold after_callback; rw [h]

/-- Witness for C2's corrected statement: scheduler available, failing
handler — ran, waited, logged, nothing escaped. -/
theorem c2_bridge_blocks_and_drops_witness :
    after_callback (some 0) none (Except.error ()) =
      { handler_ran := true, waited_for_handler := true, logged_no_loop := false,
        logged_after_failed := handler_failed (Except.error ()),
        escaped_to_sink := false } :=
  (c2_bridge_blocks_and_drops (some 0) none (Except.error ())).1 (by
    unfold resolve_loop; exact fun hc => Option.noConfusion hc)

/-- Claim C5 (confirmed): `download_to_temp` makes at most 3 attempts; an
attempt that completes ends the loop at once (first conjunct: the very first
request, at offset 0, with success ends with one request, no backoff, the
file in place). When all 3 attempts fail, the run raises (`DownloadError` in
the spec's taxonomy; the code re-raises the final exception), the partial
temp file is removed, exactly 3 requests were made — each resuming precisely
at the byte offset already written, carrying a `Range: bytes=<offset>-`
header (and append mode) exactly when that offset is positive — and the
backoffs slept between attempts were `1.5 × attempt` seconds: 1.5 then 3. -/
theorem c5_download_retry_resume_cleanup (att : Nat → Attempt) :
    (download_to_temp att).requests.length ≤ 3
    ∧ ((att 1).ok = true →
        download_to_temp att =
          { result := Except.ok (), requests := [requestFor 0], sleeps := [],
            fileExists := true, downloaded := (att 1).bytes })
    ∧ ((att 1).ok = false → (att 2).ok = false → (att 3).ok = false →
        download_to_temp att =
          { result := Except.error (),
            requests := [requestFor 0, requestFor (att 1).bytes,
                         requestFor ((att 1).bytes + (att 2).bytes)],
            sleeps := [(3 : ℚ) / 2, 3],
            fileExists := false,
            downloaded := (att 1).bytes + (att 2).bytes + (att 3).bytes }) := by
  refine ⟨?_, ?_, ?_⟩
  · unfold download_to_temp
    unfold download_loop
    unfold download_loop
    unfold download_loop
    cases h1 : (att 1).ok <;> cases h2 : (att 2).ok <;> cases h3 : (att 3).ok <;>
      simp [h1, h2, h3]
  · intro h1
    unfold download_to_temp download_loop
    simp [h1]
  · intro h1 h2 h3
    unfold download_to_temp
    unfold download_loop
    unfold download_loop
    unfold download_loop
    simp [h1, h2, h3]

/-- Witness for C5 at the all-fail oracle `attAllFail` (5 then 7 then 0 bytes
of progress): error result, file removed, resume offsets 0, 5, 12. -/
theorem c5_download_retry_resume_cleanup_witness :
    download_to_temp attAllFail =
      { result := Except.error (),
        requests := [requestFor 0, requestFor (attAllFail 1).bytes,
                     requestFor ((attAllFail 1).bytes + (attAllFail 2).bytes)],
        sleeps := [(3 : ℚ) / 2, 3],
        fileExists := false,
        downloaded := (attAllFail 1).bytes + (attAllFail 2).bytes + (attAllFail 3).bytes } :=
  (c5_download_retry_resume_cleanup attAllFail).2.2 rfl rfl rfl

theorem build_index_foldl_lookup (d : List RawSong) :
    ∀ (f : Int → Option RawSong) (n : Nat) (k : Int),
    (d.foldl build_index_step (f, n)).1 k =
      match lastIdMatch d k with
      | some v => some v
      | none => f k := by
  induction d with
  | nil => intro f n k; simp [lastIdMatch]
  | cons s rest ih =>
    intro f n k
    rw [List.foldl_cons]
    have hsplit : lastIdMatch (s :: rest) k =
        match lastIdMatch rest k with
        | some v => some v
        | none => [s].find? (fun s2 => s2.id = some k) := by
      unfold lastIdMatch
      rw [List.reverse_cons, find?_append_or]
      cases hm : rest.reverse.find? (fun s2 => s2.id = some k) <;> rfl
    cases hid : s.id with
    | none =>
      have hstep : build_index_step (f, n) s = (f, n) := by
        unfold build_index_step; rw [hid]
      rw [hstep, ih, hsplit]
      cases hm : lastIdMatch rest k with
      | some v => rfl
      | none => simp [List.find?, hid]
    | some sid =>
      have hstep : build_index_step (f, n) s =
          ((fun k2 => if k2 = sid then some s else f k2),
           if (f sid).isSome then n + 1 else n) := by
        unfold build_index_step; rw [hid]
      rw [hstep, ih, hsplit]
      cases hm : lastIdMatch rest k with
      | some v => rfl
      | none =>
        by_cases hk : k = sid
        · subst hk; simp [List.find?, hid]
        · have : ¬ sid = k := fun hc => hk hc.symm
          simp [List.find?, hid, this, hk]

theorem build_index_lookup (d : List RawSong) (k : Int) :
    (build_index (some d)).1 k = lastIdMatch d k := by
  cases d with
  | nil => simp [build_index, lastIdMatch]
  | cons a l =>
    unfold build_index
    rw [build_index_foldl_lookup]
    cases hm : lastIdMatch (a :: l) k <;> rfl

/-- Claim C6 (confirmed): `load_songs` is atomic on failure — when the fetch
(HTTP status check or JSON decode) fails, both the cached list and the id
index are exactly as before and the exception is surfaced to the caller —
and on success it replaces the cache with the complete new list and the
index with one built from that whole list, whose every lookup is the last
catalog entry with that id (`last one wins` over duplicates); no index built
from a prefix of the data is ever the returned one. -/
theorem c6_catalog_load_atomic (fetch : Except Unit (List RawSong))
    (cs : CatalogState) :
    (fetch = Except.error () → load_songs fetch cs = (cs, true))
    ∧ (∀ d, fetch = Except.ok d →
        load_songs fetch cs =
          ({ songs_cache := some d, songs_by_id := (build_index (some d)).1 }, false)
        ∧ (∀ k, (load_songs fetch cs).1.songs_by_id k = lastIdMatch d k)) := by
  constructor
  · intro h; rw [h]; rfl
  · intro d h
    constructor
    · rw [h]; rfl
    · intro k
      rw [h]
      exact build_index_lookup d k

/-- Witness for C6: a failing fetch against a loaded catalog changes nothing;
a successful fetch of two entries sharing id 1 indexes the later entry. -/
theorem c6_catalog_load_atomic_witness :
    (load_songs (Except.error ())
        { songs_cache := some [⟨some 1, "A", "X"⟩],
          songs_by_id := (build_index (some [⟨some 1, "A", "X"⟩])).1 } =
      ({ songs_cache := some [⟨some 1, "A", "X"⟩],
         songs_by_id := (build_index (some [⟨some 1, "A", "X"⟩])).1 }, true))
    ∧ ((load_songs (Except.ok [⟨some 1, "A", "X"⟩, ⟨some 1, "B", "Y"⟩])
          { songs_cache := none, songs_by_id := fun _ => none }).1.songs_by_id 1 =
        lastIdMatch [⟨some 1, "A", "X"⟩, ⟨some 1, "B", "Y"⟩] 1) := by
  constructor
  · exact (c6_catalog_load_atomic (Except.error ()) _).1 rfl
  · exact ((c6_catalog_load_atomic (Except.ok _) _).2 _ rfl).2 1

theorem go_guard_noop (env : Env) (voice : Option Nat) (fuel : Nat) (s : Sys)
    (h : s.st.is_playing = true ∨ s.st.queue = []) :
    start_playing_go env voice fuel s = s := by
  unfold start_playing_go
  rw [if_pos h]

theorem go_queue_suffix (env : Env) (voice : Option Nat) :
    ∀ (fuel : Nat) (s : Sys),
    ∃ k, k ≤ s.st.queue.length ∧
      (start_playing_go env voice fuel s).st.queue = s.st.queue.drop k := by
  intro fuel
  induction fuel with
  | zero =>
    intro s
    refine ⟨0, Nat.zero_le _, ?_⟩
    unfold start_playing_go
    split
    · simp
    · split <;> simp
  | succ n ih =>
    intro s
    obtain ⟨⟨q, ip, ips, vc, cms, pst, ctp⟩, fs, evs⟩ := s
    cases ip with
    | true =>
      refine ⟨0, Nat.zero_le _, ?_⟩
      rw [go_guard_noop _ _ _ _ (Or.inl rfl)]
      simp
    | false =>
      cases q with
      | nil =>
        refine ⟨0, Nat.zero_le _, ?_⟩
        rw [go_guard_noop _ _ _ _ (Or.inr rfl)]
        simp
      | cons a l =>
        have tail : ∀ s1 : Sys, s1.st.queue = l →
            ∃ k, k ≤ (a :: l).length ∧
              (if l = [] then s1 else start_playing_go env voice n s1).st.queue =
                (a :: l).drop k := by
          intro s1 hs1
          by_cases hrest : l = []
          · exact ⟨1, by simp, by simp [hrest, hs1]⟩
          · obtain ⟨k, hk, hq2⟩ := ih s1
            refine ⟨k + 1, ?_, ?_⟩
            · rw [hs1] at hk; simpa using Nat.succ_le_succ hk
            · rw [if_neg hrest, List.drop_succ_cons, hq2, hs1]
        rw [start_playing_go]
        simp only [show ((false = true ∨ a :: l = [])) = False by simp, if_false]
        cases hl : env.lookup a with
        | none =>
          simp only [hl]
          exact tail _ rfl
        | some info =>
          simp only [hl]
          cases he : ensure_voice env ⟨a :: l, true, false, vc, cms, pst, ctp⟩ voice with
          | error errEvs =>
            simp only [he]
            exact tail _ rfl
          | ok st1 =>
            simp only [he]
            cases hd : env.download a with
            | none =>
              simp only [hd]
              refine tail _ ?_
              simp [cleanup_tmp_fst]
            | some p =>
              simp only [hd]
              have hst1q : st1.queue = a :: l := by
                rcases ensure_voice_ok_shape _ _ _ st1 he with h1 | ⟨c, h1⟩ <;>
                  (subst h1; simp)
              by_cases hs : env.sinkOk a = true
              · rw [if_pos hs]
                exact ⟨0, Nat.zero_le _, by simp [hst1q]⟩
              · rw [if_neg hs]
                refine tail _ ?_
                simp [cleanup_tmp_fst]

theorem popHead_eq_drop_one (q : List SongId) : popHead q = q.drop 1 := by
  cases q <;> simp [popHead]

theorem drop_append_le {α : Type} :
    ∀ (l1 l2 : List α) (n : Nat), n ≤ l1.length →
      (l1 ++ l2).drop n = l1.drop n ++ l2 := by
  intro l1
  induction l1 with
  | nil =>
    intro l2 n h
    have hn : n = 0 := Nat.le_zero.mp h
    subst hn
    simp
  | cons a t ih =>
    intro l2 n h
    cases n with
    | zero => simp
    | succ m => simpa using ih l2 m (by simpa using h)

/-- On an all-unknown queue, `start_playing` drains the queue entirely,
emitting only the per-track "unknown id" messages and never touching the
sink or the filesystem. -/
theorem go_all_unknown (env : Env) (voice : Option Nat) :
    ∀ (fuel : Nat) (s : Sys),
    s.st.queue.length ≤ fuel →
    s.st.is_playing = false →
    (∀ i ∈ s.st.queue, env.lookup i = none) →
    (start_playing_go env voice fuel s).st.queue = [] ∧
    (start_playing_go env voice fuel s).evs =
      s.evs ++ s.st.queue.map Ev.sendUnknownSong ∧
    (start_playing_go env voice fuel s).fs = s.fs := by
  intro fuel
  induction fuel with
  | zero =>
    intro s hlen hp hall
    have hq : s.st.queue = [] := by
      cases hcq : s.st.queue with
      | nil => rfl
      | cons a l => rw [hcq] at hlen; simp at hlen
    rw [go_guard_noop _ _ _ _ (Or.inr hq), hq]
    simp
  | succ n ih =>
    intro s hlen hp hall
    obtain ⟨⟨q, ip, ips, vc, cms, pst, ctp⟩, fs, evs⟩ := s
    simp only at hp
    subst hp
    cases q with
    | nil =>
      rw [go_guard_noop _ _ _ _ (Or.inr rfl)]
      simp
    | cons a l =>
      have hla : env.lookup a = none := hall a (by simp)
      rw [start_playing_go]
      simp only [show ((false = true ∨ a :: l = [])) = False by simp, if_false]
      simp only [hla]
      by_cases hrest : l = []
      · subst hrest; simp
      · rw [if_neg hrest]
        have := ih ⟨⟨l, false, false, vc, cms, pst, ctp⟩, fs,
          evs ++ [Ev.sendUnknownSong a]⟩ (by simpa using Nat.le_of_succ_le_succ hlen)
          rfl (fun i hi => hall i (by simp [hi]))
        obtain ⟨h1, h2, h3⟩ := this
        refine ⟨by simpa using h1, ?_, by simpa using h3⟩
        rw [h2]
        simp

/-- `start_playing` never introduces a path that neither already existed nor
is produced by a download, and never makes the tracked temp path a path the
downloads cannot produce. -/
theorem go_fresh_path (env : Env) (voice : Option Nat) (p : TmpPath)
    (hdl : ∀ i, env.download i ≠ some p) :
    ∀ (fuel : Nat) (s : Sys),
    p ∉ s.fs →
    s.st.current_tmp_path ≠ some p →
    p ∉ (start_playing_go env voice fuel s).fs ∧
    (start_playing_go env voice fuel s).st.current_tmp_path ≠ some p := by
  intro fuel
  induction fuel with
  | zero =>
    intro s hfs htp
    constructor
    · unfold start_playing_go
      split
      · exact hfs
      · split <;> exact hfs
    · unfold start_playing_go
      split
      · exact htp
      · split <;> exact htp
  | succ n ih =>
    intro s hfs htp
    obtain ⟨⟨q, ip, ips, vc, cms, pst, ctp⟩, fs, evs⟩ := s
    simp only at hfs htp
    cases ip with
    | true =>
      rw [go_guard_noop _ _ _ _ (Or.inl rfl)]
      exact ⟨hfs, htp⟩
    | false =>
      cases q with
      | nil =>
        rw [go_guard_noop _ _ _ _ (Or.inr rfl)]
        exact ⟨hfs, htp⟩
      | cons a l =>
        rw [start_playing_go]
        simp only [show ((false = true ∨ a :: l = [])) = False by simp, if_false]
        cases hl : env.lookup a with
        | none =>
          simp only [hl]
          by_cases hrest : l = []
          · rw [if_pos hrest]
            exact ⟨hfs, htp⟩
          · rw [if_neg hrest]
            exact ih _ hfs htp
        | some info =>
          simp only [hl]
          cases he : ensure_voice env ⟨a :: l, true, false, vc, cms, pst, ctp⟩ voice with
          | error errEvs =>
            simp only [he]
            by_cases hrest : l = []
            · rw [if_pos hrest]
              exact ⟨hfs, htp⟩
            · rw [if_neg hrest]
              exact ih _ hfs htp
          | ok st1 =>
            simp only [he]
            have hst1tp : st1.current_tmp_path = ctp := by
              rcases ensure_voice_ok_shape _ _ _ st1 he with h1 | ⟨c, h1⟩ <;>
                (subst h1; simp)
            cases hd : env.download a with
            | none =>
              simp only [hd]
              have hcl1 : p ∉ (cleanup_tmp { st1 with queue := l, is_playing := false } fs).2 :=
                fun hc => hfs (cleanup_tmp_mem _ _ _ hc)
              by_cases hrest : l = []
              · rw [if_pos hrest]
                refine ⟨hcl1, ?_⟩
                rw [cleanup_tmp_fst]
                simp
              · rw [if_neg hrest]
                refine ih _ hcl1 ?_
                rw [cleanup_tmp_fst]
                simp
            | some p2 =>
              have hp2 : p2 ≠ p := fun hc => hdl a (by rw [hd, hc])
              have hfs2 : p ∉ fs ++ [p2] := by
                simp only [List.mem_append, List.mem_singleton]
                rintro (hc | hc)
                · exact hfs hc
                · exact hp2 hc.symm
              simp only [hd]
              by_cases hs : env.sinkOk a = true
              · rw [if_pos hs]
                refine ⟨hfs2, ?_⟩
                simp [Option.some_inj]
                exact fun hc => hp2 hc
              · rw [if_neg hs]
                have hcl2 : p ∉ (cleanup_tmp { st1 with current_tmp_path := some p2, current_mp3_seconds := env.duration p2, play_start_time := some env.now, queue := l, is_playing := false } (fs ++ [p2])).2 :=
                  fun hc => hfs2 (cleanup_tmp_mem _ _ _ hc)
                by_cases hrest : l = []
                · rw [if_pos hrest]
                  refine ⟨hcl2, ?_⟩
                  rw [cleanup_tmp_fst]
                  simp
                · rw [if_neg hrest]
                  refine ih _ hcl2 ?_
                  rw [cleanup_tmp_fst]
                  simp

/-- A completion only ever removes queue entries from the front: the popped
head plus whatever consecutive heads the cascaded `start_playing` skipped. -/
theorem handle_queue_drop (env : Env) (s : Sys) (err : Bool) :
    ∃ k, k ≤ s.st.queue.length ∧
      (handle_after_play env s err).st.queue = s.st.queue.drop k := by
  unfold handle_after_play
  cases hq : s.st.queue with
  | nil =>
    refine ⟨0, Nat.zero_le _, ?_⟩
    simp only [cleanup_tmp_fst, hq, popHead]
    cases hvc : s.st.vc with
    | none => simp
    | some v => by_cases hc : v.connected <;> simp [hc]
  | cons a t =>
    simp only [cleanup_tmp_fst, hq, popHead]
    by_cases ht : t = []
    · subst ht
      refine ⟨1, by simp, ?_⟩
      cases hvc : s.st.vc with
      | none => simp
      | some v => by_cases hc : v.connected <;> simp [hc]
    · rw [if_neg ht]
      obtain ⟨k, hk, hq2⟩ := go_queue_suffix env
        (s.st.vc.map VC.chan) t.length
        ⟨⟨t, false, false, s.st.vc, none, none, none⟩,
          (cleanup_tmp s.st s.fs).2,
          if err then s.evs ++ [Ev.sendPlayError] else s.evs⟩
      exact ⟨k + 1, by simpa using Nat.succ_le_succ (by simpa using hk),
        by simpa [start_playing] using hq2⟩

/-- Claim C4 (confirmed): when the queue head is absent from the catalog,
`start_playing` sends the "unknown id" notice, pops that head without any
sink invocation for it, and recurses on the remaining queue (retry-by-skip);
and on a queue of only unknown ids — in particular the sole unknown id 99 of
the spec scenario — the queue drains to empty with zero sink invocations,
the recursion being bounded by the queue length. -/
theorem c4_skip_unknown_head :
    (∀ (env : Env) (s : Sys) (voice : Option Nat) (id : SongId) (rest : List SongId),
      s.st.is_playing = false → s.st.queue = id :: rest → env.lookup id = none →
      start_playing env s voice =
        (if rest = [] then
          { st := { s.st with queue := rest, is_playing := false, is_paused := false },
            fs := s.fs, evs := s.evs ++ [Ev.sendUnknownSong id] }
        else
          start_playing env
            { st := { s.st with queue := rest, is_playing := false, is_paused := false },
              fs := s.fs, evs := s.evs ++ [Ev.sendUnknownSong id] } voice))
    ∧ (∀ (env : Env) (s : Sys) (voice : Option Nat),
      s.st.is_playing = false → (∀ i ∈ s.st.queue, env.lookup i = none) →
      (start_playing env s voice).st.queue = [] ∧
      (start_playing env s voice).evs = s.evs ++ s.st.queue.map Ev.sendUnknownSong ∧
      (∀ id2 p, Ev.sinkStart id2 p ∈ (start_playing env s voice).evs →
        Ev.sinkStart id2 p ∈ s.evs)) := by
  constructor
  · intro env s voice id rest hp hq hl
    obtain ⟨⟨q, ip, ips, vc, cms, pst, ctp⟩, fs, evs⟩ := s
    simp only at hp hq
    subst hp
    subst hq
    unfold start_playing
    simp only [List.length_cons]
    rw [start_playing_go]
    simp only [show ((false = true ∨ id :: rest = [])) = False by simp, if_false]
    simp only [hl]
  · intro env s voice hp hall
    have h := go_all_unknown env voice s.st.queue.length s (Nat.le_refl _) hp hall
    obtain ⟨h1, h2, h3⟩ := h
    refine ⟨h1, h2, ?_⟩
    intro id2 p hmem
    rw [show start_playing env s voice =
      start_playing_go env voice s.st.queue.length s from rfl] at hmem
    rw [h2] at hmem
    rcases List.mem_append.mp hmem with hin | hin
    · exact hin
    · obtain ⟨i, hi, hfalse⟩ := List.mem_map.mp hin
      exact absurd hfalse (by simp)

/-- Witness for C4: the spec scenario — sole queue entry 99, unknown to the
catalog — drains the queue with no sink start, emitting only the notice. -/
theorem c4_skip_unknown_head_witness :
    (start_playing envSkip sys99 none).st.queue = [] ∧
    (start_playing envSkip sys99 none).evs =
      sys99.evs ++ sys99.st.queue.map Ev.sendUnknownSong ∧
    (∀ id2 p, Ev.sinkStart id2 p ∈ (start_playing envSkip sys99 none).evs →
      Ev.sinkStart id2 p ∈ sys99.evs) :=
  c4_skip_unknown_head.2 envSkip sys99 none rfl (by decide)

/-- Counterexample for claim C7 as stated: with track 1 finishing and the
unknown id 99 queued behind it, a single completion invocation removes two
entries (the popped head and the skipped unknown head), contradicting
"every other operation removes at most the single head element per
invocation". -/
theorem c7_completion_can_remove_more_than_head :
    (handle_after_play envSkip sysCascade false).st.queue.length + 1 <
      sysCascade.st.queue.length := by decide

/-- Claim C7 (corrected): `disconnect_and_clear` (the `/disconnect`
background cleanup) empties the whole queue, forces both flags off, nulls
the handle and requests the transport disconnect whenever a handle was held;
`/stop` (pause), `/resume` and `/skip` never touch the queue; and a
completion advance removes entries only from the front of the queue — the
finished head plus any consecutive heads the cascaded `start_playing`
skipped — never from the middle or tail. `disconnect_and_clear` thus remains
the only operation that unconditionally empties the queue. -/
theorem c7_only_disconnect_clears :
    (∀ s : Sys, (disconnect_and_clear s).st.queue = [] ∧
      (disconnect_and_clear s).st.is_playing = false ∧
      (disconnect_and_clear s).st.is_paused = false ∧
      (disconnect_and_clear s).st.vc = none ∧
      (s.st.vc ≠ none → Ev.disconnectVC ∈ (disconnect_and_clear s).evs))
    ∧ (∀ (s : Sys) (b1 b2 : Bool),
      (stop_as_pause s b1 b2).st.queue = s.st.queue ∧
      (resume_cmd s b2).st.queue = s.st.queue ∧
      (skip_cmd s b1 b2).st.queue = s.st.queue)
    ∧ (∀ (env : Env) (s : Sys) (err : Bool),
      ∃ k, k ≤ s.st.queue.length ∧
        (handle_after_play env s err).st.queue = s.st.queue.drop k) := by
  refine ⟨?_, ?_, fun env s err => handle_queue_drop env s err⟩
  · intro s
    unfold disconnect_and_clear
    cases hvc : s.st.vc with
    | none => simp [hvc]
    | some v => simp [hvc]
  · intro s b1 b2
    refine ⟨?_, ?_, ?_⟩
    · unfold stop_as_pause
      cases hvc : s.st.vc with
      | none => simp [hvc]
      | some v =>
        simp only [hvc]
        split
        · rfl
        · split <;> rfl
    · unfold resume_cmd
      cases hvc : s.st.vc with
      | none => simp [hvc]
      | some v =>
        simp only [hvc]
        split <;> rfl
    · unfold skip_cmd
      cases hvc : s.st.vc with
      | none => simp [hvc]
      | some v =>
        simp only [hvc]
        split <;> rfl

/-- Witness for C7's corrected statement at concrete states: a `/disconnect`
on the playing scenario state, a `/skip` leaving the queue alone, and a
completion on the cascade state removing only front entries. -/
theorem c7_only_disconnect_clears_witness :
    (disconnect_and_clear sys12).st.queue = [] ∧
    (disconnect_and_clear sys12).st.vc = none ∧
    Ev.disconnectVC ∈ (disconnect_and_clear sys12).evs ∧
    (skip_cmd sys12 true false).st.queue = sys12.st.queue ∧
    (∃ k, k ≤ sysCascade.st.queue.length ∧
      (handle_after_play envSkip sysCascade false).st.queue =
        sysCascade.st.queue.drop k) :=
  ⟨(c7_only_disconnect_clears.1 sys12).1,
    (c7_only_disconnect_clears.1 sys12).2.2.2.1,
    (c7_only_disconnect_clears.1 sys12).2.2.2.2 (by decide),
    (c7_only_disconnect_clears.2.1 sys12 true false).2.2,
    c7_only_disconnect_clears.2.2 envSkip sysCascade false⟩

/-- Counterexample for claim C9 as stated: the claim says that after any
completion "the tracked path field is cleared to null"; but when the advance
cascades into starting the next queued track (scenario state: track 1
finishing from temp file 11 with track 2 queued), `handle_after_play` clears
the field and then `start_playing` reassigns it to the next track's fresh
temp file, so it ends non-null. -/
theorem c9_tmp_path_reassigned_on_cascade :
    (handle_after_play env12 sys12 false).st.current_tmp_path ≠ none := by decide

/-- Claim C9 (corrected): temp-file deletion is unconditional and idempotent —
cleaning twice equals cleaning once, an unset tracked path is a strict no-op,
and deleting an already-removed path raises nothing and leaves the filesystem
unchanged (the `FileNotFoundError` is passed over) — and after any completion
the previously assigned temp path no longer exists on disk and is no longer
the tracked path; the tracked field is nulled by the cleanup but may be
reassigned to the *next* track's fresh file when the advance starts one
(fresh paths being the `mkstemp` guarantee, stated here as the downloads
never yielding the old path). -/
theorem c9_tmp_cleanup_idempotent_safe :
    (∀ (st : GuildState) (fs : List TmpPath),
      cleanup_tmp (cleanup_tmp st fs).1 (cleanup_tmp st fs).2 = cleanup_tmp st fs)
    ∧ (∀ (st : GuildState) (fs : List TmpPath),
      st.current_tmp_path = none → cleanup_tmp st fs = (st, fs))
    ∧ (∀ (st : GuildState) (fs : List TmpPath) (p : TmpPath),
      st.current_tmp_path = some p → p ∉ fs →
      cleanup_tmp st fs = ({ st with current_tmp_path := none }, fs))
    ∧ (∀ (env : Env) (s : Sys) (err : Bool) (p : TmpPath),
      s.st.current_tmp_path = some p → (∀ i, env.download i ≠ some p) →
      p ∉ (handle_after_play env s err).fs ∧
      (handle_after_play env s err).st.current_tmp_path ≠ some p) := by
  refine ⟨?_, ?_, ?_, ?_⟩
  · intro st fs
    rw [cleanup_tmp_fst]
    show ({ st with current_tmp_path := none }, (cleanup_tmp st fs).2) =
      cleanup_tmp st fs
    exact Prod.ext (cleanup_tmp_fst st fs).symm rfl
  · intro st fs h
    unfold cleanup_tmp
    rw [h]
  · intro st fs p h hnm
    unfold cleanup_tmp os_remove
    rw [h]
    simp [hnm]
  · intro env s err p htp hdl
    have hbase : p ∉ (cleanup_tmp s.st s.fs).2 := cleanup_tmp_not_mem _ _ _ htp
    unfold handle_after_play
    cases hq : s.st.queue with
    | nil =>
      simp only [cleanup_tmp_fst, hq, popHead]
      cases hvc : s.st.vc with
      | none => simpa using hbase
      | some v =>
        by_cases hc : v.connected <;> simp [hc] <;> exact hbase
    | cons a t =>
      simp only [cleanup_tmp_fst, hq, popHead]
      by_cases ht : t = []
      · subst ht
        cases hvc : s.st.vc with
        | none => simpa using hbase
        | some v =>
          by_cases hc : v.connected <;> simp [hc] <;> exact hbase
      · rw [if_neg ht]
        have hgo := go_fresh_path env (s.st.vc.map VC.chan) p hdl t.length
          ⟨⟨t, false, false, s.st.vc, none, none, none⟩,
            (cleanup_tmp s.st s.fs).2,
            if err then s.evs ++ [Ev.sendPlayError] else s.evs⟩
          hbase (by simp)
        simpa [start_playing] using hgo

/-- Witness for C9's corrected statement: double cleanup on the scenario
state, and a completion (with all downloads failing, so no reassignment can
reuse a path) after which temp file 11 is gone and untracked. -/
theorem c9_tmp_cleanup_idempotent_safe_witness :
    cleanup_tmp (cleanup_tmp sys12.st sys12.fs).1 (cleanup_tmp sys12.st sys12.fs).2 =
      cleanup_tmp sys12.st sys12.fs
    ∧ cleanup_tmp sysIdle.st sysIdle.fs = (sysIdle.st, sysIdle.fs)
    ∧ (11 ∉ (handle_after_play envSkip sys12 false).fs ∧
       (handle_after_play envSkip sys12 false).st.current_tmp_path ≠ some 11) :=
  ⟨c9_tmp_cleanup_idempotent_safe.1 sys12.st sys12.fs,
    c9_tmp_cleanup_idempotent_safe.2.1 sysIdle.st sysIdle.fs rfl,
    c9_tmp_cleanup_idempotent_safe.2.2.2 envSkip sys12 false 11 rfl
      (fun i => by simp [envSkip])⟩

/-- Claim C1 (confirmed): on every completion with a non-empty queue the
advance handler warns if the sink reported an error, deletes the current
temp file (second conjunct: the tracked path is gone from disk), pops the
queue head, resets `is_playing`/`is_paused`/duration/timing, and then either
re-invokes `start_playing` on the remaining queue, or — queue now empty —
disconnects a held (connected) voice transport, nulls the handle and emits
the "left voice, queue empty" notice. The closing conjuncts replay the
spec's scenario: with catalog `1 ↦ ("A","X"), 2 ↦ ("B","Y")` and queue
`[1, 2]`, the first completion leaves queue `[2]` with the sink started on
track 2's fresh file, and the second completion empties the queue and
releases the transport. -/
theorem c1_advance_nonempty_queue :
    (∀ (env : Env) (s : Sys) (err : Bool) (h : SongId) (t : List SongId),
      s.st.queue = h :: t →
      (handle_after_play env s err =
        (if t = [] then
          (match s.st.vc with
           | some v =>
             if v.connected then
               { st := { queue := t, is_playing := false, is_paused := false,
                         vc := none, current_mp3_seconds := none,
                         play_start_time := none, current_tmp_path := none },
                 fs := (cleanup_tmp s.st s.fs).2,
                 evs := (if err then s.evs ++ [Ev.sendPlayError] else s.evs)
                          ++ [Ev.disconnectVC, Ev.sendLeftVoice] }
             else
               { st := { queue := t, is_playing := false, is_paused := false,
                         vc := s.st.vc, current_mp3_seconds := none,
                         play_start_time := none, current_tmp_path := none },
                 fs := (cleanup_tmp s.st s.fs).2,
                 evs := if err then s.evs ++ [Ev.sendPlayError] else s.evs }
           | none =>
             { st := { queue := t, is_playing := false, is_paused := false,
                       vc := s.st.vc, current_mp3_seconds := none,
                       play_start_time := none, current_tmp_path := none },
               fs := (cleanup_tmp s.st s.fs).2,
               evs := if err then s.evs ++ [Ev.sendPlayError] else s.evs })
         else
          start_playing env
            { st := { queue := t, is_playing := false, is_paused := false,
                      vc := s.st.vc, current_mp3_seconds := none,
                      play_start_time := none, current_tmp_path := none },
              fs := (cleanup_tmp s.st s.fs).2,
              evs := if err then s.evs ++ [Ev.sendPlayError] else s.evs }
            (s.st.vc.map VC.chan)))
      ∧ (∀ p, s.st.current_tmp_path = some p → p ∉ (cleanup_tmp s.st s.fs).2))
    ∧ handle_after_play env12 sys12 false =
      { st := { queue := [2], is_playing := true, is_paused := false,
                vc := some ⟨7, true⟩, current_mp3_seconds := some 100,
                play_start_time := some 0, current_tmp_path := some 12 },
        fs := [12],
        evs := [Ev.sendPrefetching 2, Ev.sendPrefetchDone 2, Ev.sinkStart 2 12] }
    ∧ handle_after_play env12
        { st := { queue := [2], is_playing := true, is_paused := false,
                  vc := some ⟨7, true⟩, current_mp3_seconds := some 100,
                  play_start_time := some 0, current_tmp_path := some 12 },
          fs := [12],
          evs := [Ev.sendPrefetching 2, Ev.sendPrefetchDone 2, Ev.sinkStart 2 12] }
        false =
      { st := { queue := [], is_playing := false, is_paused := false,
                vc := none, current_mp3_seconds := none,
                play_start_time := none, current_tmp_path := none },
        fs := [],
        evs := [Ev.sendPrefetching 2, Ev.sendPrefetchDone 2, Ev.sinkStart 2 12,
                Ev.disconnectVC, Ev.sendLeftVoice] } := by
  refine ⟨?_, by decide, by decide⟩
  intro env s err h t hq
  refine ⟨?_, fun p hp => cleanup_tmp_not_mem _ _ _ hp⟩
  unfold handle_after_play
  simp only [cleanup_tmp_fst, hq, popHead]

/-- Witness for C1's general conjunct at the scenario state: the temp file of
the finishing track is gone from disk after cleanup. -/
theorem c1_advance_nonempty_queue_witness :
    11 ∉ (cleanup_tmp sys12.st sys12.fs).2 :=
  (c1_advance_nonempty_queue.1 env12 sys12 false 1 [2] rfl).2 11 rfl

theorem disconnect_queue_nil (s : Sys) : (disconnect_and_clear s).st.queue = [] := by
  unfold disconnect_and_clear
  cases hvc : s.st.vc <;> simp [hvc]

/-- A plain completion — non-empty queue whose next head (if any) can start —
removes exactly the head. -/
theorem handle_plain_pop (env : Env) (s : Sys) (err : Bool)
    (hp : plainCompletion env s = true) :
    (handle_after_play env s err).st.queue = s.st.queue.drop 1 := by
  unfold plainCompletion at hp
  cases hq : s.st.queue with
  | nil => rw [hq] at hp; simp at hp
  | cons x t =>
    rw [hq] at hp
    simp only [popHead] at hp
    unfold handle_after_play
    simp only [cleanup_tmp_fst, hq, popHead]
    cases t with
    | nil =>
      cases hvc : s.st.vc with
      | none => simp
      | some v => by_cases hc : v.connected <;> simp [hc]
    | cons j rest =>
      rw [if_neg (by simp)]
      cases hvc : s.st.vc with
      | none => rw [hvc] at hp; simp at hp
      | some v =>
        rw [hvc] at hp
        simp only [Bool.and_eq_true, decide_eq_true_eq, Option.isSome_iff_exists]
          at hp
        obtain ⟨-, ⟨⟨hconn, ⟨info, hinfo⟩⟩, ⟨p2, hp2⟩⟩, hsk⟩ := hp
        have hev : ensure_voice env
            ⟨j :: rest, true, false, some v, none, none, none⟩ (some v.chan) =
            Except.ok ⟨j :: rest, true, false, some v, none, none, none⟩ := by
          unfold ensure_voice resolve_voice_channel
          simp [hconn]
        rw [start_playing]
        simp only [List.length_cons]
        rw [start_playing_go]
        simp [hinfo, hev, hp2, hsk]

theorem histQ_drop : ∀ (ops : List QOp) (q : List SongId) (n : Nat), n ≤ q.length →
    ∃ m, m ≤ (histQ q ops).length ∧ histQ (q.drop n) ops = (histQ q ops).drop m := by
  intro ops
  induction ops with
  | nil =>
    intro q n h
    exact ⟨n, by simpa [histQ] using h, by simp [histQ]⟩
  | cons op ops ih =>
    intro q n h
    cases op with
    | enq i =>
      obtain ⟨m, hm, hh⟩ := ih (q ++ [i]) n (by simp; omega)
      refine ⟨m, by simpa [histQ] using hm, ?_⟩
      simp only [histQ]
      rw [← hh, drop_append_le _ _ _ h]
    | complete err =>
      obtain ⟨m, hm, hh⟩ := ih q n h
      exact ⟨m, by simpa [histQ] using hm, by simpa [histQ] using hh⟩
    | clear =>
      exact ⟨0, Nat.zero_le _, by simp [histQ]⟩

/-- FIFO over real traces: whatever interleaving of enqueues, completions
(with their cascades) and clears runs, the queue is always a suffix of the
enqueue history since the last clear — entries only ever leave the front. -/
theorem runSys_fifo (env : Env) : ∀ (ops : List QOp) (s : Sys),
    ∃ k, k ≤ (histQ s.st.queue ops).length ∧
      (runSys env s ops).st.queue = (histQ s.st.queue ops).drop k := by
  intro ops
  induction ops with
  | nil =>
    intro s
    exact ⟨0, Nat.zero_le _, by simp [runSys, histQ]⟩
  | cons op ops ih =>
    intro s
    cases op with
    | enq i =>
      have h := ih (stepSys env s (QOp.enq i))
      simpa [runSys, histQ, stepSys, play_enqueue] using h
    | complete err =>
      obtain ⟨j, hj, hdropj⟩ := handle_queue_drop env s err
      obtain ⟨k, hk, hrun⟩ := ih (stepSys env s (QOp.complete err))
      simp only [stepSys] at hk hrun
      rw [hdropj] at hk hrun
      obtain ⟨m, hm, hhist⟩ := histQ_drop ops s.st.queue j hj
      rw [hhist] at hk hrun
      refine ⟨m + k, ?_, ?_⟩
      · simp only [histQ]
        rw [List.length_drop] at hk
        omega
      · show (runSys env (stepSys env s (QOp.complete err)) ops).st.queue =
          (histQ s.st.queue (QOp.complete err :: ops)).drop (m + k)
        simp only [stepSys, histQ]
        rw [hrun, List.drop_drop]
    | clear =>
      obtain ⟨k, hk, hrun⟩ := ih (stepSys env s QOp.clear)
      simp only [stepSys] at hk hrun
      rw [disconnect_queue_nil] at hk hrun
      refine ⟨k, by simpa [histQ] using hk, ?_⟩
      simp only [runSys, List.foldl_cons, histQ]
      exact hrun

/-- Queue length accounting over plain traces: length change is exactly
enqueues minus completions minus entries wiped by clears. -/
theorem runSys_length (env : Env) : ∀ (ops : List QOp) (s : Sys),
    plainTrace env s ops = true →
    (runSys env s ops).st.queue.length + countComplete ops +
      clearedInTrace env s ops = s.st.queue.length + countEnq ops := by
  intro ops
  induction ops with
  | nil =>
    intro s _
    simp [runSys, countComplete, countEnq, clearedInTrace]
  | cons op ops ih =>
    intro s hpt
    simp only [plainTrace, Bool.and_eq_true] at hpt
    obtain ⟨hop, hrest⟩ := hpt
    have hih := ih (stepSys env s op) hrest
    cases op with
    | enq i =>
      have hqe : (stepSys env s (QOp.enq i)).st.queue.length
          = s.st.queue.length + 1 := by
        simp [stepSys, play_enqueue]
      simp [runSys, List.foldl_cons, countComplete, countEnq, clearedInTrace,
        List.countP_cons, stepSys] at hih hqe ⊢
      omega
    | complete err =>
      have hpc : plainCompletion env s = true := hop
      have hne : s.st.queue ≠ [] := by
        unfold plainCompletion at hpc
        simp only [Bool.and_eq_true] at hpc
        simpa using hpc.1
      have hpop := handle_plain_pop env s err hpc
      have hlen : (stepSys env s (QOp.complete err)).st.queue.length
          = s.st.queue.length - 1 := by
        simp only [stepSys]
        rw [hpop, List.length_drop]
      have hpos : 0 < s.st.queue.length := List.length_pos.mpr hne
      simp [runSys, List.foldl_cons, countComplete, countEnq, clearedInTrace,
        List.countP_cons, stepSys] at hih hlen ⊢
      omega
    | clear =>
      have hlen : (disconnect_and_clear s).st.queue.length = 0 := by
        rw [disconnect_queue_nil]
        rfl
      simp [runSys, List.foldl_cons, countComplete, countEnq, clearedInTrace,
        List.countP_cons, stepSys] at hih ⊢
      omega

/-- Counterexample for claim C8 as stated: the claim's parenthetical "each
completion removes only the head" fails on the code — a completion on queue
`[1, 99]` with 99 unknown to the catalog cascades through the skip policy
and leaves `[]`, not the head-removal result `[99]`. -/
theorem c8_completion_not_single_pop :
    (stepSys envSkip sysCascade (QOp.complete false)).st.queue ≠
      sysCascade.st.queue.drop 1 := by decide

/-- Claim C8 (corrected): each enqueue appends to the tail and changes no
other state field — it never blocks and is valid in any state; a *plain*
completion (non-empty queue whose follow-up head, if any, can actually
start) removes exactly the head; over arbitrary interleavings the queue is
always a suffix of the enqueue history since the last clear (entries leave
only from the front, so FIFO order is preserved even through skip cascades);
and over traces of plain completions the final length satisfies
`length + completions + cleared = initial length + enqueues`. -/
theorem c8_queue_fifo_length :
    (∀ (st : GuildState) (i : SongId),
      (play_enqueue st i).queue = st.queue ++ [i] ∧
      (play_enqueue st i).is_playing = st.is_playing ∧
      (play_enqueue st i).is_paused = st.is_paused ∧
      (play_enqueue st i).vc = st.vc ∧
      (play_enqueue st i).current_tmp_path = st.current_tmp_path)
    ∧ (∀ (env : Env) (s : Sys) (err : Bool),
      plainCompletion env s = true →
      (handle_after_play env s err).st.queue = s.st.queue.drop 1)
    ∧ (∀ (env : Env) (ops : List QOp) (s : Sys),
      ∃ k, k ≤ (histQ s.st.queue ops).length ∧
        (runSys env s ops).st.queue = (histQ s.st.queue ops).drop k)
    ∧ (∀ (env : Env) (ops : List QOp) (s : Sys),
      plainTrace env s ops = true →
      (runSys env s ops).st.queue.length + countComplete ops +
        clearedInTrace env s ops = s.st.queue.length + countEnq ops) :=
  ⟨fun _ _ => ⟨rfl, rfl, rfl, rfl, rfl⟩,
    handle_plain_pop,
    fun env ops s => runSys_fifo env ops s,
    fun env ops s h => runSys_length env ops s h⟩

/-- Witness for C8's corrected statement on a concrete plain trace from the
scenario state (queue `[1, 2]`, both startable): two completions, one
enqueue, one clear — final length 0, and `0 + 2 + 1 = 2 + 1`. -/
theorem c8_queue_fifo_length_witness :
    (handle_after_play env12 sys12 false).st.queue = sys12.st.queue.drop 1
    ∧ (runSys env12 sys12
          [QOp.complete false, QOp.complete false, QOp.enq 5, QOp.clear]).st.queue.length
        + countComplete [QOp.complete false, QOp.complete false, QOp.enq 5, QOp.clear]
        + clearedInTrace env12 sys12
            [QOp.complete false, QOp.complete false, QOp.enq 5, QOp.clear]
      = sys12.st.queue.length
        + countEnq [QOp.complete false, QOp.complete false, QOp.enq 5, QOp.clear] :=
  ⟨c8_queue_fifo_length.2.1 env12 sys12 false (by decide),
    c8_queue_fifo_length.2.2.2 env12
      [QOp.complete false, QOp.complete false, QOp.enq 5, QOp.clear] sys12
      (by decide)⟩

end MusicBot
